import Mathlib

/-!
Shallow embedding of the battlesheep contract (src/state.rs, src/contract.rs,
src/msg.rs). Machine integers (`u8`) are modelled as `Nat` with explicit
saturating/wrapping arithmetic where the source uses it; `StdResult<T>` is
`Except String T` with the exact error strings built by `generic_err`;
storage is modelled by passing the loaded `Game` in and returning the saved
`Game`, since the handlers follow a load → mutate → save discipline.
Rust's panicking `Vec` indexing is modelled with `Option`-returning lookup;
handler code paths that would panic return a distinguished "panic" error,
and the in-place list update of `confirm_shot` is modelled by `modifyAt`,
which leaves the list unchanged when the index is out of range (every
theorem below only uses it with the index in bounds, matching the source's
non-panicking executions).
-/

namespace BattleSheep

/-- Coordinates (src/state.rs `Coords`): `x`, `y` are `u8` in the source. -/
structure Coords where
  x : Nat
  y : Nat
deriving DecidableEq, Repr

/-- Rendering of `Coords` by its `Display` implementation. -/
def Coords.display (c : Coords) : String :=
  "(" ++ toString c.x ++ ", " ++ toString c.y ++ ")"

/-- Orientation of a herd (src/state.rs). -/
inductive Orientation where
  | Horizontal
  | Vertical
deriving DecidableEq, Repr

/-- A group of sheep: a line of `length` sheep starting at `coords`. -/
structure Herd where
  coords : Coords
  length : Nat
  orientation : Orientation
deriving DecidableEq, Repr

def PASTURE_SIZE : Nat := 10

/-- Saturating `u8` addition on values already in `[0, 255]`. -/
def satAdd (a b : Nat) : Nat :=
  if a + b ≤ 255 then a + b else 255

/-- Wrapping `u8` subtraction of 1 (release-mode `length - 1`). -/
def sub1 (n : Nat) : Nat :=
  if n = 0 then 255 else n - 1

/-- Location of the last sheep (src/state.rs `Herd::end`). -/
def Herd.«end» (h : Herd) : Coords :=
  match h.orientation with
  | Orientation.Horizontal =>
      { x := satAdd h.coords.x (sub1 h.length), y := h.coords.y }
  | Orientation.Vertical =>
      { x := h.coords.x, y := satAdd h.coords.y (sub1 h.length) }

/-- Whether the herd occupies the cell `coord` (src/state.rs `Herd::is_at`). -/
def Herd.is_at (h : Herd) (coord : Coords) : Bool :=
  match h.orientation with
  | Orientation.Horizontal =>
      decide (h.coords.y = coord.y ∧ h.coords.x ≤ coord.x ∧ coord.x ≤ h.«end».x)
  | Orientation.Vertical =>
      decide (h.coords.x = coord.x ∧ h.coords.y ≤ coord.y ∧ coord.y ≤ h.«end».y)

/-- Whether two inclusive integer segments intersect (src/state.rs
`ranges_intersect`). -/
def ranges_intersect (s1 e1 s2 e2 : Nat) : Bool :=
  decide ((s1 ≥ s2 ∧ s1 ≤ e2) ∨ (s1 < s2 ∧ e1 ≥ s2))

/-- Whether two herds share a cell, via projections (src/state.rs
`Herd::intersects`). -/
def Herd.intersects (h other : Herd) : Bool :=
  ranges_intersect h.coords.x h.«end».x other.coords.x other.«end».x &&
  ranges_intersect h.coords.y h.«end».y other.coords.y other.«end».y

/-- The error constructor `cosmwasm_std::generic_err`. -/
def generic_err {α : Type} (msg : String) : Except String α :=
  Except.error msg

/-- Herd legality (src/state.rs `Herd::verify`). -/
def Herd.verify (h : Herd) : Except String Unit :=
  if h.length = 0 then
    generic_err ("Herd at " ++ h.coords.display ++ " has no sheep")
  else if h.«end».x ≥ PASTURE_SIZE ∨ h.«end».y ≥ PASTURE_SIZE then
    generic_err ("Herd at " ++ h.coords.display ++ " isn't contained in the pasture")
  else
    Except.ok ()

/-- One player's board (src/state.rs `Pasture`). -/
structure Pasture where
  herds : List Herd
  shots : List Coords
deriving DecidableEq, Repr

/-- Required number of herds of a given length (src/state.rs). -/
def expected_herd_count_of_length (length : Nat) : Nat :=
  match length with
  | 2 => 1
  | 3 => 2
  | 4 => 1
  | 5 => 1
  | _ => 0

/-- Run `Herd::verify` over the herds in list order (the first loop of
`Pasture::verify`; the count accumulation of that loop is recomputed by
`lengthEntries`). -/
def verifyAllHerds : List Herd → Except String Unit
  | [] => Except.ok ()
  | h :: rest =>
    match h.verify with
    | Except.error e => Except.error e
    | Except.ok () => verifyAllHerds rest

/-- The distinct values of a list, first occurrences first (a deterministic
rendering of iterating the `HashMap` of `Pasture::verify`). -/
def dedupFirst (seen : List Nat) : List Nat → List Nat
  | [] => []
  | l :: rest =>
    if l ∈ seen then dedupFirst seen rest else l :: dedupFirst (l :: seen) rest

/-- The (length, count) entries of the herd-length map built by
`Pasture::verify`. -/
def lengthEntries (herds : List Herd) : List (Nat × Nat) :=
  (dedupFirst [] (herds.map Herd.length)).map
    (fun l => (l, (herds.filter (fun h => h.length == l)).length))

/-- The count check of `Pasture::verify`: every entry of the length map must
match `expected_herd_count_of_length` (error strings transcribed verbatim,
including their swapped wording/arguments). -/
def checkCounts : List (Nat × Nat) → Except String Unit
  | [] => Except.ok ()
  | (length, count) :: rest =>
    let expected_count := expected_herd_count_of_length length
    if expected_count > count then
      generic_err ("Too many herds of length " ++ toString length ++
        ". You should only have " ++ toString expected_count ++
        " but you have " ++ toString count)
    else if expected_count < count then
      generic_err ("You need " ++ toString count ++ " herds of length " ++
        toString length ++ ". Found only " ++ toString expected_count)
    else
      checkCounts rest

/-- The collision error message of `Pasture::verify`. -/
def overlapMsg (i1 : Nat) (h1 : Herd) (i2 : Nat) (h2 : Herd) : String :=
  "Herd " ++ toString i1 ++ " from " ++ h1.coords.display ++ " to " ++
  h1.«end».display ++ " intersects with herd " ++ toString i2 ++ " from " ++
  h2.coords.display ++ " to " ++ h2.«end».display

/-- Inner loop of the collision check of `Pasture::verify`. -/
def checkAgainstAll (i1 : Nat) (h1 : Herd) : List (Nat × Herd) → Except String Unit
  | [] => Except.ok ()
  | (i2, h2) :: rest =>
    if i1 = i2 then checkAgainstAll i1 h1 rest
    else if h1.intersects h2 then generic_err (overlapMsg i1 h1 i2 h2)
    else checkAgainstAll i1 h1 rest

/-- Outer loop of the collision check of `Pasture::verify`. -/
def checkOverlaps (all : List (Nat × Herd)) : List (Nat × Herd) → Except String Unit
  | [] => Except.ok ()
  | (i1, h1) :: rest =>
    match checkAgainstAll i1 h1 all with
    | Except.error e => Except.error e
    | Except.ok () => checkOverlaps all rest

/-- Pasture legality (src/state.rs `Pasture::verify`): verify each herd,
check the herd-length counts, check pairwise collisions. -/
def Pasture.verify (p : Pasture) : Except String Unit :=
  match verifyAllHerds p.herds with
  | Except.error e => Except.error e
  | Except.ok () =>
    match checkCounts (lengthEntries p.herds) with
    | Except.error e => Except.error e
    | Except.ok () => checkOverlaps p.herds.enum p.herds.enum

/-- A request's identity claim (src/msg.rs `Credentials`). -/
structure Credentials where
  game : String
  username : String
  password : String
deriving DecidableEq, Repr

/-- A classification of shots into hits and misses (src/msg.rs `Shots`). -/
structure Shots where
  hits : List Coords
  misses : List Coords
deriving DecidableEq, Repr

/-- A registered participant (src/state.rs `Player`). -/
structure Player where
  username : String
  password : String
  pasture : Pasture
deriving DecidableEq, Repr

/-- Credential check (src/state.rs `Player::matches_credentials`). -/
def Player.matches_credentials (p : Player) (credentials : Credentials) : Bool :=
  p.username == credentials.username && p.password == credentials.password

/-- Mutable game progress (src/state.rs `GameState`). `turn` is a `u8`. -/
structure GameState where
  players : List Player
  turn : Nat
  next_shot : Option Coords
deriving DecidableEq, Repr

/-- Default game state: no players, turn 0, no pending shot. -/
def GameState.default : GameState :=
  { players := [], turn := 0, next_shot := none }

/-- A named, persisted match (src/state.rs `Game`). -/
structure Game where
  name : String
  state : GameState
deriving DecidableEq, Repr

/-- A game known to have exactly two players (src/state.rs `FullGame`). -/
structure FullGame where
  game : Game
deriving DecidableEq, Repr

/-- src/state.rs `Game::full`: only a two-player game converts. -/
def Game.full (g : Game) : Except String FullGame :=
  if g.state.players.length ≠ 2 then
    generic_err "Not enough players in game!"
  else
    Except.ok { game := g }

/-- src/state.rs `Game::add_player`: duplicate-username check (only when
exactly one player is present), fullness check (`> 2` in the source),
pasture verification, then append. -/
def Game.add_player (g : Game) (player : Player) : Except String Game :=
  let dup :=
    match g.state.players with
    | [p0] => p0.username == player.username
    | _ => false
  if dup then
    generic_err ("username " ++ player.username ++ " is already taken!")
  else if g.state.players.length > 2 then
    generic_err "Game already full!"
  else
    match player.pasture.verify with
    | Except.error e => Except.error e
    | Except.ok () =>
      Except.ok { g with state := { g.state with players := g.state.players ++ [player] } }

/-- src/state.rs `FullGame::player`: `&state.players[state.turn]`. The
source's indexing panics out of bounds; the model returns `none` there. -/
def FullGame.player (fg : FullGame) : Option Player :=
  fg.game.state.players[fg.game.state.turn]?

/-- src/state.rs `FullGame::opponent`: index `(turn + 1) % 2`. -/
def FullGame.opponent (fg : FullGame) : Option Player :=
  fg.game.state.players[(fg.game.state.turn + 1) % 2]?

/-- src/state.rs `FullGame::shoot`: record the pending shot. -/
def FullGame.shoot (fg : FullGame) (coords : Coords) : FullGame :=
  { fg with game := { fg.game with state := { fg.game.state with next_shot := some coords } } }

/-- src/state.rs `FullGame::next_shot`. -/
def FullGame.next_shot (fg : FullGame) : Option Coords :=
  fg.game.state.next_shot

/-- Apply `f` to the element at index `i`, leaving the list unchanged when
`i` is out of range (the source would panic there). -/
def modifyAt {α : Type} (f : α → α) : Nat → List α → List α
  | _, [] => []
  | 0, a :: rest => f a :: rest
  | n + 1, a :: rest => a :: modifyAt f n rest

/-- src/state.rs `FullGame::confirm_shot`: push `coords` onto the
current-turn player's own `pasture.shots`. -/
def FullGame.confirm_shot (fg : FullGame) (coords : Coords) : FullGame :=
  { fg with game := { fg.game with state := { fg.game.state with
      players := modifyAt
        (fun p => { p with pasture := { p.pasture with shots := p.pasture.shots ++ [coords] } })
        fg.game.state.turn fg.game.state.players } } }

/-- src/state.rs `FullGame::get_player_shots`: partition the *opponent's*
recorded shots against the *opponent's own* herds. -/
def FullGame.get_player_shots (fg : FullGame) : Option Shots :=
  fg.opponent.map (fun op =>
    let pasture := op.pasture
    let all_shots := pasture.shots
    let part := all_shots.partition
      (fun shot => pasture.herds.any (fun herd => herd.is_at shot))
    { hits := part.1, misses := part.2 })

/-- src/state.rs `FullGame::get_opponent_shots`: partition the current-turn
player's recorded shots against that same player's own herds. -/
def FullGame.get_opponent_shots (fg : FullGame) : Option Shots :=
  fg.player.map (fun pl =>
    let pasture := pl.pasture
    let all_shots := pasture.shots
    let part := all_shots.partition
      (fun shot => pasture.herds.any (fun herd => herd.is_at shot))
    { hits := part.1, misses := part.2 })

/-- src/state.rs `FullGame::end_turn`: clear the pending shot and advance
the turn. -/
def FullGame.end_turn (fg : FullGame) : FullGame :=
  { fg with game := { fg.game with state := { fg.game.state with
      next_shot := none,
      turn := (fg.game.state.turn + 1) % 2 } } }

/-- The serialized payloads produced by `to_binary` in the query handlers
(serialization itself is out of scope; the constructors record what value
was serialized). -/
inductive Binary where
  | ofUnit : Unit → Binary
  | ofShots : Shots → Binary
  | ofPasture : Pasture → Binary
  | ofOptionCoords : Option Coords → Binary
deriving DecidableEq, Repr

/-- src/contract.rs `try_join`: build the player from the credentials and the
supplied pasture, add it, save. -/
def try_join (game0 : Game) (credentials : Credentials) (pasture : Pasture) :
    Except String Game :=
  match game0.add_player (Player.mk credentials.username credentials.password pasture) with
  | Except.error e => Except.error e
  | Except.ok game => Except.ok game

/-- src/contract.rs `try_shoot`: note the source *rejects* when the caller's
credentials match the current-turn player. -/
def try_shoot (game0 : Game) (credentials : Credentials) (coords : Coords) :
    Except String Game :=
  match game0.full with
  | Except.error e => Except.error e
  | Except.ok game =>
    match game.player with
    | none => Except.error "panic: index out of bounds"
    | some player =>
      if player.matches_credentials credentials then
        generic_err "I'ts not your turn"
      else
        Except.ok (game.shoot coords).game

/-- src/contract.rs `try_confirm`: note the source *rejects* when the
caller's credentials match the opponent, and performs no pending-shot
check. -/
def try_confirm (game0 : Game) (credentials : Credentials) (coords : Coords) :
    Except String Game :=
  match game0.full with
  | Except.error e => Except.error e
  | Except.ok game =>
    match game.opponent with
    | none => Except.error "panic: index out of bounds"
    | some opponent =>
      if opponent.matches_credentials credentials then
        generic_err "You do not have permissions to confirm this shot"
      else
        Except.ok ((game.confirm_shot coords).end_turn).game

/-- src/contract.rs `try_get_my_shots`: each accepted branch ends in a
semicolon in the source, so `shots` is the unit value and the computed
classification is dropped; the handler serializes that unit. -/
def try_get_my_shots (game0 : Game) (credentials : Credentials) :
    Except String Binary :=
  match game0.full with
  | Except.error e => Except.error e
  | Except.ok game =>
    match game.player, game.opponent with
    | some player, some opponent =>
      match
        (if player.matches_credentials credentials then
          let _ := game.get_player_shots
          Except.ok ()
        else if opponent.matches_credentials credentials then
          let _ := game.get_opponent_shots
          Except.ok ()
        else
          generic_err "You do not have permissions to get this information" :
          Except String Unit)
      with
      | Except.error e => Except.error e
      | Except.ok shots => Except.ok (Binary.ofUnit shots)
    | _, _ => Except.error "panic: index out of bounds"

/-- The game states reachable through the public operations: `NewGame`
creates `GameState.default`; `Join`, `Shoot` and `Confirm` are the handler
transitions on the stored state. -/
inductive Reachable (name : String) : GameState → Prop where
  | new : Reachable name GameState.default
  | join {s : GameState} {credentials : Credentials} {pasture : Pasture} {g' : Game} :
      Reachable name s → try_join (Game.mk name s) credentials pasture = Except.ok g' →
      Reachable name g'.state
  | shoot {s : GameState} {credentials : Credentials} {coords : Coords} {g' : Game} :
      Reachable name s → try_shoot (Game.mk name s) credentials coords = Except.ok g' →
      Reachable name g'.state
  | confirm {s : GameState} {credentials : Credentials} {coords : Coords} {g' : Game} :
      Reachable name s → try_confirm (Game.mk name s) credentials coords = Except.ok g' →
      Reachable name g'.state

/-! Concrete fixtures used by the counterexample evaluations and witnesses:
a legal herd layout (one herd of length 2, two of length 3, one of length 4,
one of length 5, on distinct rows), two registered players and a full
two-player game with `turn = 0` and no pending shot. -/

def validHerds : List Herd :=
  [ Herd.mk (Coords.mk 0 0) 2 Orientation.Horizontal,
    Herd.mk (Coords.mk 0 1) 3 Orientation.Horizontal,
    Herd.mk (Coords.mk 0 2) 3 Orientation.Horizontal,
    Herd.mk (Coords.mk 0 3) 4 Orientation.Horizontal,
    Herd.mk (Coords.mk 0 4) 5 Orientation.Horizontal ]

def alicePasture : Pasture := Pasture.mk validHerds [Coords.mk 5 5]

def bobPasture : Pasture := Pasture.mk validHerds [Coords.mk 0 0, Coords.mk 9 9]

def alice : Player := Player.mk "alice" "pw1" alicePasture

def bob : Player := Player.mk "bob" "pw2" bobPasture

def aliceCreds : Credentials := Credentials.mk "g1" "alice" "pw1"

def bobCreds : Credentials := Credentials.mk "g1" "bob" "pw2"

def charlieCreds : Credentials := Credentials.mk "g1" "charlie" "pw3"

def gameAB : Game := Game.mk "g1" (GameState.mk [alice, bob] 0 none)

def gameABpending : Game :=
  Game.mk "g1" (GameState.mk [alice, bob] 0 (some (Coords.mk 1 1)))

def gameABC : Game :=
  Game.mk "g1" (GameState.mk
    [alice, bob, Player.mk "charlie" "pw3" (Pasture.mk validHerds [])] 0 none)

/-- C1: in the two-player game `gameAB` (alice at index 0, bob at index 1,
turn 0), alice is the current-turn player and her credentials match, yet
`try_shoot` rejects her with the not-your-turn error; bob, whose credentials
do not match the current-turn player, is accepted and the pending shot is
set — the source's authorization test is inverted relative to the claim. -/
theorem shoot_auth_inverted :
    gameAB.state.players[gameAB.state.turn]? = some alice
    ∧ alice.matches_credentials aliceCreds = true
    ∧ try_shoot gameAB aliceCreds (Coords.mk 3 3) =
        Except.error "I'ts not your turn"
    ∧ bob.matches_credentials bobCreds = true
    ∧ try_shoot gameAB bobCreds (Coords.mk 3 3) =
        Except.ok (Game.mk "g1" (GameState.mk [alice, bob] 0 (some (Coords.mk 3 3)))) :=
  ⟨rfl, rfl, rfl, rfl, rfl⟩

/-- C2: in `gameAB` (turn 0), bob is the non-turn player (the target), his
credentials match the opponent slot, yet `try_confirm` rejects him with the
permissions error; alice, the current-turn shooter, is accepted, the shot is
recorded on her list, and the turn advances — the inverse of the claim. -/
theorem confirm_auth_inverted :
    gameAB.state.players[(gameAB.state.turn + 1) % 2]? = some bob
    ∧ bob.matches_credentials bobCreds = true
    ∧ try_confirm gameAB bobCreds (Coords.mk 3 3) =
        Except.error "You do not have permissions to confirm this shot"
    ∧ alice.matches_credentials aliceCreds = true
    ∧ try_confirm gameAB aliceCreds (Coords.mk 3 3) =
        Except.ok (Game.mk "g1" (GameState.mk
          [Player.mk "alice" "pw1" (Pasture.mk validHerds [Coords.mk 5 5, Coords.mk 3 3]),
           bob] 1 none)) :=
  ⟨rfl, rfl, rfl, rfl, rfl⟩

/-- C3: a successful `try_get_my_shots` by alice returns the serialized unit
value, not a `Shots` record — the source drops the computed classification
(each branch ends in a semicolon). Moreover the classification the alice
branch computes and drops, `get_player_shots`, partitions the *opponent's*
(bob's) recorded shots against bob's *own* herds, even though alice's fired
shot list is `[(5, 5)]`. -/
theorem my_shots_returns_unit :
    try_get_my_shots gameAB aliceCreds = Except.ok (Binary.ofUnit ())
    ∧ (FullGame.mk gameAB).get_player_shots =
        some (Shots.mk [Coords.mk 0 0] [Coords.mk 9 9])
    ∧ alice.pasture.shots = [Coords.mk 5 5]
    ∧ bobPasture.shots = [Coords.mk 0 0, Coords.mk 9 9] :=
  ⟨rfl, rfl, rfl, rfl⟩

/-- C4: the pasture with no herds at all passes `Pasture::verify` and is
accepted by Join, although its herd-length multiset (the empty one) is not
{2, 3, 3, 4, 5} — the count check only inspects lengths that occur, so
entirely missing herd lengths are never detected. -/
theorem verify_accepts_empty_pasture :
    Pasture.verify (Pasture.mk [] []) = Except.ok ()
    ∧ try_join (Game.mk "g1" GameState.default) charlieCreds (Pasture.mk [] []) =
        Except.ok (Game.mk "g1" (GameState.mk
          [Player.mk "charlie" "pw3" (Pasture.mk [] [])] 0 none))
    ∧ ((Pasture.mk [] []).herds.map Herd.length == [2, 3, 3, 4, 5]) = false :=
  ⟨rfl, rfl, rfl⟩

/-- C5: `gameAB` already holds two players, yet a third Join (charlie, with
a legal pasture) is accepted and the stored player list grows to three — the
fullness check in `add_player` compares the length with `> 2` instead of
`>= 2`. -/
theorem third_join_accepted :
    gameAB.state.players.length = 2
    ∧ try_join gameAB charlieCreds (Pasture.mk validHerds []) = Except.ok gameABC
    ∧ gameABC.state.players.length = 3 :=
  ⟨rfl, rfl, rfl⟩

/-- C6: neither protocol-ordering check exists. With no shot pending
(`next_shot = none`), `try_confirm` succeeds (recording a never-fired shot
and advancing the turn) instead of failing with a no-shot-pending error; and
with a shot pending, `try_shoot` succeeds and silently overwrites the
pending coordinate instead of failing with a shot-already-pending error. -/
theorem no_pending_shot_checks :
    gameAB.state.next_shot = none
    ∧ try_confirm gameAB aliceCreds (Coords.mk 2 2) =
        Except.ok (Game.mk "g1" (GameState.mk
          [Player.mk "alice" "pw1" (Pasture.mk validHerds [Coords.mk 5 5, Coords.mk 2 2]),
           bob] 1 none))
    ∧ gameABpending.state.next_shot = some (Coords.mk 1 1)
    ∧ try_shoot gameABpending bobCreds (Coords.mk 2 2) =
        Except.ok (Game.mk "g1" (GameState.mk [alice, bob] 0 (some (Coords.mk 2 2)))) :=
  ⟨rfl, rfl, rfl, rfl⟩

lemma satAdd_cases (a b : Nat) : satAdd a b = a + b ∨ satAdd a b = 255 := by
  unfold satAdd
  split <;> simp

lemma herd_verify_ok {h : Herd} (hv : h.verify = Except.ok ()) :
    h.length ≠ 0 ∧ h.«end».x < 10 ∧ h.«end».y < 10 := by
  unfold Herd.verify at hv
  split at hv
  · simp [generic_err] at hv
  · split at hv
    · simp [generic_err] at hv
    · rename_i hlen hbounds
      simp only [PASTURE_SIZE] at hbounds
      push_neg at hbounds
      exact ⟨hlen, hbounds.1, hbounds.2⟩

/-- The test `is_at` is membership in the herd's bounding box: on the flat axis the
box is a single line, so this is equivalent to the source's axis test. -/
lemma is_at_iff (h : Herd) (c : Coords) :
    h.is_at c = true ↔
      (h.coords.x ≤ c.x ∧ c.x ≤ h.«end».x ∧ h.coords.y ≤ c.y ∧ c.y ≤ h.«end».y) := by
  obtain ⟨⟨hx, hy⟩, hl, ho⟩ := h
  cases ho <;> simp [Herd.is_at, Herd.«end»] <;> omega

/-- A verified herd's bounding box has well-ordered projections. -/
lemma verified_bounds {h : Herd} (hv : h.verify = Except.ok ()) :
    h.coords.x ≤ h.«end».x ∧ h.coords.y ≤ h.«end».y := by
  have hverify := herd_verify_ok hv
  obtain ⟨⟨hx, hy⟩, hl, ho⟩ := h
  obtain ⟨-, hex, hey⟩ := hverify
  cases ho <;> simp only [Herd.«end»] at hex hey ⊢
  · rcases satAdd_cases hx (sub1 hl) with hc | hc <;> simp [hc] at hex ⊢
  · rcases satAdd_cases hy (sub1 hl) with hc | hc <;> simp [hc] at hey ⊢

lemma ranges_intersect_true_iff {s1 e1 s2 e2 : Nat} (h1 : s1 ≤ e1) (h2 : s2 ≤ e2) :
    ranges_intersect s1 e1 s2 e2 = true ↔ (s1 ≤ e2 ∧ s2 ≤ e1) := by
  unfold ranges_intersect
  simp only [decide_eq_true_eq]
  omega

lemma ranges_intersect_symm {s1 e1 s2 e2 : Nat} (h1 : s1 ≤ e1) (h2 : s2 ≤ e2) :
    ranges_intersect s1 e1 s2 e2 = ranges_intersect s2 e2 s1 e1 := by
  unfold ranges_intersect
  rw [decide_eq_decide]
  omega

/-- C7: for two herds that both pass `Herd::verify`, `Herd::intersects`
answers exactly whether some cell is occupied by both (`is_at` both), and
on genuine closed intervals (start ≤ end) `ranges_intersect` is symmetric
and decides closed-interval overlap. -/
theorem herd_intersects_iff_shared_cell (h1 h2 : Herd) (s1 e1 s2 e2 : Nat)
    (hv1 : h1.verify = Except.ok ()) (hv2 : h2.verify = Except.ok ())
    (hr1 : s1 ≤ e1) (hr2 : s2 ≤ e2) :
    (h1.intersects h2 = true ↔ ∃ c : Coords, h1.is_at c = true ∧ h2.is_at c = true)
    ∧ ranges_intersect s1 e1 s2 e2 = ranges_intersect s2 e2 s1 e1
    ∧ (ranges_intersect s1 e1 s2 e2 = true ↔ (s1 ≤ e2 ∧ s2 ≤ e1)) := by
  refine ⟨?_, ranges_intersect_symm hr1 hr2, ranges_intersect_true_iff hr1 hr2⟩
  obtain ⟨hb1x, hb1y⟩ := verified_bounds hv1
  obtain ⟨hb2x, hb2y⟩ := verified_bounds hv2
  unfold Herd.intersects
  rw [Bool.and_eq_true, ranges_intersect_true_iff hb1x hb2x,
    ranges_intersect_true_iff hb1y hb2y]
  constructor
  · rintro ⟨⟨hxa, hxb⟩, hya, hyb⟩
    refine ⟨Coords.mk (max h1.coords.x h2.coords.x) (max h1.coords.y h2.coords.y), ?_, ?_⟩ <;>
      simp only [is_at_iff] <;> omega
  · rintro ⟨c, hc1, hc2⟩
    rw [is_at_iff] at hc1 hc2
    omega

/-- Witness for C7: two concrete verified herds crossing at the origin, and
the concrete intervals `[0,1]`, `[1,2]`. -/
theorem herd_intersects_iff_shared_cell_witness :
    (Herd.mk (Coords.mk 0 0) 2 Orientation.Horizontal).verify = Except.ok ()
    ∧ (Herd.mk (Coords.mk 0 0) 2 Orientation.Vertical).verify = Except.ok ()
    ∧ (0 : Nat) ≤ 1 ∧ (1 : Nat) ≤ 2
    ∧ ((Herd.mk (Coords.mk 0 0) 2 Orientation.Horizontal).intersects
          (Herd.mk (Coords.mk 0 0) 2 Orientation.Vertical) = true ↔
        ∃ c : Coords,
          (Herd.mk (Coords.mk 0 0) 2 Orientation.Horizontal).is_at c = true ∧
          (Herd.mk (Coords.mk 0 0) 2 Orientation.Vertical).is_at c = true)
    ∧ ranges_intersect 0 1 1 2 = ranges_intersect 1 2 0 1
    ∧ (ranges_intersect 0 1 1 2 = true ↔ ((0 : Nat) ≤ 2 ∧ (1 : Nat) ≤ 1)) := by
  have h := herd_intersects_iff_shared_cell
    (Herd.mk (Coords.mk 0 0) 2 Orientation.Horizontal)
    (Herd.mk (Coords.mk 0 0) 2 Orientation.Vertical)
    0 1 1 2 rfl rfl (by omega) (by omega)
  exact ⟨rfl, rfl, by omega, by omega, h.1, h.2.1, h.2.2⟩

lemma modifyAt_eq_set {α : Type} (f : α → α) (l : List α) :
    ∀ (i : Nat) (x : α), l[i]? = some x → modifyAt f i l = l.set i (f x) := by
  induction l with
  | nil => intro i x h; simp at h
  | cons a rest ih =>
    intro i x h
    cases i with
    | zero =>
      simp only [List.getElem?_cons_zero, Option.some.injEq] at h
      subst h
      rfl
    | succ n =>
      simp only [List.getElem?_cons_succ] at h
      simp only [modifyAt, List.set]
      rw [ih n x h]

/-- C8: whenever `try_confirm` succeeds on a game whose turn index is in
range, the result has the confirmed coordinate appended to the current-turn
player's (the shooter's) recorded shots, `next_shot` cleared, the turn
flipped to the opposite index, and nothing else changed: the game keeps its
name and the player list is the old list with only the turn slot replaced. -/
theorem confirm_success_effect (g : Game) (credentials : Credentials)
    (coords : Coords) (g' : Game)
    (hturn : g.state.turn ≤ 1)
    (hok : try_confirm g credentials coords = Except.ok g') :
    ∃ shooter : Player,
      g.state.players[g.state.turn]? = some shooter
      ∧ g'.name = g.name
      ∧ g'.state.next_shot = none
      ∧ g'.state.turn = 1 - g.state.turn
      ∧ g'.state.players = g.state.players.set g.state.turn
          { shooter with pasture :=
              { shooter.pasture with shots := shooter.pasture.shots ++ [coords] } } := by
  unfold try_confirm at hok
  split at hok
  · simp at hok
  · rename_i game hfull
    unfold Game.full at hfull
    split at hfull
    · simp [generic_err] at hfull
    · rename_i hlen
      push_neg at hlen
      simp only [Except.ok.injEq] at hfull
      subst hfull
      split at hok
      · simp at hok
      · rename_i opponent hop
        split at hok
        · simp [generic_err] at hok
        · simp only [Except.ok.injEq] at hok
          subst hok
          have hlt : g.state.turn < g.state.players.length := by omega
          refine ⟨g.state.players[g.state.turn], List.getElem?_eq_getElem hlt, rfl, rfl, ?_, ?_⟩
          · show (g.state.turn + 1) % 2 = 1 - g.state.turn
            omega
          · show modifyAt _ g.state.turn g.state.players = _
            exact modifyAt_eq_set _ _ _ _ (List.getElem?_eq_getElem hlt)

def gameABafterConfirm : Game :=
  Game.mk "g1" (GameState.mk
    [Player.mk "alice" "pw1" (Pasture.mk validHerds [Coords.mk 5 5, Coords.mk 3 3]),
     bob] 1 none)

/-- Witness for C8: alice confirms `(3, 3)` in `gameAB`, producing
`gameABafterConfirm`. -/
theorem confirm_success_effect_witness :
    gameAB.state.turn ≤ 1
    ∧ try_confirm gameAB aliceCreds (Coords.mk 3 3) = Except.ok gameABafterConfirm
    ∧ ∃ shooter : Player,
        gameAB.state.players[gameAB.state.turn]? = some shooter
        ∧ gameABafterConfirm.name = gameAB.name
        ∧ gameABafterConfirm.state.next_shot = none
        ∧ gameABafterConfirm.state.turn = 1 - gameAB.state.turn
        ∧ gameABafterConfirm.state.players =
            gameAB.state.players.set gameAB.state.turn
              { alice with pasture :=
                  { alice.pasture with shots := alice.pasture.shots ++ [Coords.mk 3 3] } } := by
  refine ⟨by decide, rfl, ?_⟩
  have h := confirm_success_effect gameAB aliceCreds (Coords.mk 3 3)
    gameABafterConfirm (by decide) rfl
  obtain ⟨shooter, hs, h1, h2, h3, h4⟩ := h
  have hsa : shooter = alice := by
    have : gameAB.state.players[gameAB.state.turn]? = some alice := rfl
    rw [this] at hs
    exact (Option.some.injEq _ _ ▸ hs).symm
  subst hsa
  exact ⟨alice, hs, h1, h2, h3, h4⟩

/-- C9: `Pasture::verify` never inspects the `shots` field (the two sides
are the same computation over the herd list); hence Join accepts a pasture
with a pre-filled shots list whenever it accepts the same herds with any
other shots list, storing the supplied list verbatim as the new player's
pasture, and `confirm_shot` simply appends to whatever that stored list
holds — pre-supplied coordinates stay in the player's fired-shots record. -/
theorem verify_ignores_shots (herds : List Herd) (shots1 shots2 : List Coords)
    (g : Game) (credentials : Credentials) (g1 : Game)
    (fg : FullGame) (p : Player) (coords : Coords)
    (hjoin : try_join g credentials (Pasture.mk herds shots1) = Except.ok g1)
    (hp : fg.player = some p) :
    (Pasture.mk herds shots1).verify = (Pasture.mk herds shots2).verify
    ∧ try_join g credentials (Pasture.mk herds shots2) =
        Except.ok { g with state := { g.state with players :=
          g.state.players ++ [Player.mk credentials.username credentials.password
            (Pasture.mk herds shots2)] } }
    ∧ (fg.confirm_shot coords).player =
        some { p with pasture :=
            { p.pasture with shots := p.pasture.shots ++ [coords] } } := by
  have htj : ∀ pa : Pasture, try_join g credentials pa =
      g.add_player (Player.mk credentials.username credentials.password pa) := by
    intro pa
    unfold try_join
    split <;> rename_i heq <;> rw [heq]
  refine ⟨rfl, ?_, ?_⟩
  · rw [htj] at hjoin ⊢
    simp only [Game.add_player] at hjoin ⊢
    split at hjoin
    · simp [generic_err] at hjoin
    · split at hjoin
      · simp [generic_err] at hjoin
      · split at hjoin
        · simp at hjoin
        · rename_i hdup hfullcheck e hverify
          rw [if_neg hdup, if_neg hfullcheck,
            show (Pasture.mk herds shots2).verify = (Pasture.mk herds shots1).verify from rfl,
            hverify]
  · unfold FullGame.player at hp
    obtain ⟨hlt, -⟩ := List.getElem?_eq_some.mp hp
    show (modifyAt _ fg.game.state.turn fg.game.state.players)[fg.game.state.turn]? = _
    rw [modifyAt_eq_set _ _ _ _ hp, List.getElem?_set_eq_of_lt _ (by simpa using hlt)]

/-- Witness for C9: charlie joins an empty game, first with an empty shots
list and then with the pre-filled list `[(1, 1)]`; and in `gameAB` a confirm
appends to alice's stored list. -/
theorem verify_ignores_shots_witness :
    try_join (Game.mk "g1" GameState.default) charlieCreds (Pasture.mk validHerds []) =
        Except.ok (Game.mk "g1" (GameState.mk
          [Player.mk "charlie" "pw3" (Pasture.mk validHerds [])] 0 none))
    ∧ (FullGame.mk gameAB).player = some alice
    ∧ ((Pasture.mk validHerds []).verify =
          (Pasture.mk validHerds [Coords.mk 1 1]).verify
        ∧ try_join (Game.mk "g1" GameState.default) charlieCreds
            (Pasture.mk validHerds [Coords.mk 1 1]) =
            Except.ok { Game.mk "g1" GameState.default with
              state := { GameState.default with players :=
                GameState.default.players ++
                  [Player.mk charlieCreds.username charlieCreds.password
                    (Pasture.mk validHerds [Coords.mk 1 1])] } }
        ∧ ((FullGame.mk gameAB).confirm_shot (Coords.mk 3 3)).player =
            some { alice with pasture :=
                { alice.pasture with shots := alice.pasture.shots ++ [Coords.mk 3 3] } }) :=
  ⟨rfl, rfl,
    verify_ignores_shots validHerds [] [Coords.mk 1 1]
      (Game.mk "g1" GameState.default) charlieCreds
      (Game.mk "g1" (GameState.mk
        [Player.mk "charlie" "pw3" (Pasture.mk validHerds [])] 0 none))
      (FullGame.mk gameAB) alice (Coords.mk 3 3) rfl rfl⟩

lemma add_player_ok {g : Game} {pl : Player} {g' : Game}
    (h : g.add_player pl = Except.ok g') :
    g' = { g with state := { g.state with players := g.state.players ++ [pl] } } := by
  simp only [Game.add_player] at h
  split at h
  · simp [generic_err] at h
  · split at h
    · simp [generic_err] at h
    · split at h
      · simp at h
      · simp only [Except.ok.injEq] at h
        exact h.symm

lemma try_join_ok {g : Game} {c : Credentials} {pa : Pasture} {g' : Game}
    (h : try_join g c pa = Except.ok g') :
    g' = { g with state := { g.state with players :=
      g.state.players ++ [Player.mk c.username c.password pa] } } := by
  have htj : try_join g c pa = g.add_player (Player.mk c.username c.password pa) := by
    unfold try_join
    split <;> rename_i heq <;> rw [heq]
  rw [htj] at h
  exact add_player_ok h

lemma try_shoot_ok {g : Game} {c : Credentials} {co : Coords} {g' : Game}
    (h : try_shoot g c co = Except.ok g') :
    g' = { g with state := { g.state with next_shot := some co } } := by
  unfold try_shoot at h
  split at h
  · simp at h
  · rename_i game hfull
    unfold Game.full at hfull
    split at hfull
    · simp [generic_err] at hfull
    · simp only [Except.ok.injEq] at hfull
      subst hfull
      split at h
      · simp at h
      · split at h
        · simp [generic_err] at h
        · simp only [Except.ok.injEq] at h
          exact h.symm

lemma try_confirm_ok_turn {g : Game} {c : Credentials} {co : Coords} {g' : Game}
    (h : try_confirm g c co = Except.ok g') :
    g'.state.turn = (g.state.turn + 1) % 2 := by
  unfold try_confirm at h
  split at h
  · simp at h
  · rename_i game hfull
    unfold Game.full at hfull
    split at hfull
    · simp [generic_err] at hfull
    · simp only [Except.ok.injEq] at hfull
      subst hfull
      split at h
      · simp at h
      · split at h
        · simp [generic_err] at h
        · simp only [Except.ok.injEq] at h
          rw [← h]
          rfl

/-- C10: every game state reachable through the public operations has
`turn < 2`, and therefore on any reachable state with exactly two players
the `player()` and `opponent()` lookups both land inside the player list. -/
theorem reachable_turn_in_bounds (name : String) (s : GameState)
    (h : Reachable name s) :
    s.turn < 2
    ∧ (s.players.length = 2 →
        (FullGame.mk (Game.mk name s)).player.isSome = true
        ∧ (FullGame.mk (Game.mk name s)).opponent.isSome = true) := by
  have hturn : s.turn < 2 := by
    induction h with
    | new => simp [GameState.default]
    | join hr hok ih =>
      rw [try_join_ok hok]
      exact ih
    | shoot hr hok ih =>
      rw [try_shoot_ok hok]
      exact ih
    | confirm hr hok ih =>
      rw [try_confirm_ok_turn hok]
      omega
  refine ⟨hturn, fun hlen => ⟨?_, ?_⟩⟩
  · show (s.players[s.turn]?).isSome = true
    rw [List.getElem?_eq_getElem (by omega)]
    rfl
  · show (s.players[(s.turn + 1) % 2]?).isSome = true
    rw [List.getElem?_eq_getElem (by omega)]
    rfl

/-- Witness for C10: the two-player state of `gameAB` is reachable by two
joins from a new game, and both lookups succeed on it. -/
theorem reachable_turn_in_bounds_witness :
    gameAB.state.turn < 2
    ∧ (gameAB.state.players.length = 2 →
        (FullGame.mk (Game.mk "g1" gameAB.state)).player.isSome = true
        ∧ (FullGame.mk (Game.mk "g1" gameAB.state)).opponent.isSome = true) := by
  have h1 : Reachable "g1" (GameState.mk [alice] 0 none) :=
    Reachable.join Reachable.new
      (show try_join (Game.mk "g1" GameState.default) aliceCreds alicePasture =
        Except.ok (Game.mk "g1" (GameState.mk [alice] 0 none)) from rfl)
  have h2 : Reachable "g1" gameAB.state :=
    Reachable.join h1
      (show try_join (Game.mk "g1" (GameState.mk [alice] 0 none)) bobCreds bobPasture =
        Except.ok gameAB from rfl)
  exact reachable_turn_in_bounds "g1" gameAB.state h2

end BattleSheep
